import Mathlib

open List

set_option maxHeartbeats 1000000

namespace Angr

/-- One execution path handle, as seen by the scheduler. The scheduler treats
paths as sealed objects with identity; the field pid models Python object
identity, errored models the list of error-state exits recorded on the path by
its last advance, backtrace models the lineage summary, and the two Booleans
record the observable effect of the suspend and resume collaborator calls. -/
structure Path where
  pid : Nat
  errored : List Nat
  backtrace : List Nat
  suspended : Bool
  pickled : Bool
  deriving DecidableEq

/-- Entry of the deadended collection. The Python list is heterogeneous: it
holds either a full (suspended) path object or only the backtrace of a path;
this tagged sum makes the two shapes explicit. -/
inductive DeadEntry where
  | full (p : Path)
  | lineage (bt : List Nat)
  deriving DecidableEq

/-- Modelled from the spec: Path.suspend lives in path.py, which is absent from
src. Per the collaborator contract, suspend(persist) releases live resources,
optionally persists, and is idempotent; we record its observable effect in the
two flags. -/
def Path.suspend (doPickle : Bool) (p : Path) : Path :=
  { p with suspended := true, pickled := doPickle }

/-- Modelled from the spec: Path.resume lives in path.py, which is absent from
src. Per the collaborator contract, resume undoes any suspension. -/
def Path.resume (p : Path) : Path :=
  { p with suspended := false }

/-- Membership test by object identity. The Python operator in on plain
objects without a custom equality falls back to identity; pid models that
identity, as the spec states paths are sealed handles comparable for set
membership. -/
def memIdB (p : Path) (l : List Path) : Bool :=
  l.any (fun q => q.pid == p.pid)

/-- Identity handles of a list of paths. -/
def pids (l : List Path) : List Nat :=
  l.map Path.pid

/-- Configuration and collaborator surface of one Surveyor, fixed at
construction: maxActive and maxConcurrency (stored as given, Python integers),
the two Booleans pickle_paths and save_deadends, the overridable
path_comparator, the external advance operation (Path.continue_path), and the
overridable filter_path predicate. -/
structure Config where
  maxActive : Int
  maxConcurrency : Int
  picklePaths : Bool
  saveDeadends : Bool
  comparator : Path → Path → Int
  advance : Path → List Path
  keep : Path → Bool

/-- The five path collections of a Surveyor plus the step counter. -/
structure Surveyor where
  active : List Path
  deadended : List DeadEntry
  spilled : List Path
  errored : List Path
  suspended : List Path
  currentStep : Nat
  deriving DecidableEq

/-- Python slice bound: for a slice endpoint k of a list of length len, a
non-negative k means position k, a negative k counts from the end, clamped at
zero (Nat subtraction clamps). -/
def pyBound (k : Int) (len : Nat) : Nat :=
  if 0 ≤ k then k.toNat else len - (-k).toNat

/-- Python slice l[:k]. -/
def pyTake {α : Type} (k : Int) (l : List α) : List α :=
  l.take (pyBound k l.length)

/-- Python slice l[k:]. -/
def pyDrop {α : Type} (k : Int) (l : List α) : List α :=
  l.drop (pyBound k l.length)

/-- Source path_comparator, the default comparator: reports every pair of
paths as equal priority. -/
def path_comparator (_a _b : Path) : Int := 0

/-- Source prioritize_paths: paths.sort(cmp=comparator). Python list.sort is a
stable sort, and the output of a stable sort is uniquely determined by the
input order and the (total preorder) comparator, so stable insertion sort over
the non-strict relation induced by the comparator models it. -/
def prioritize_paths (cmp : Path → Path → Int) (paths : List Path) : List Path :=
  List.insertionSort (fun a b => cmp a b ≤ 0) paths

/-- Source spill_paths: concatenate active and spilled, prioritize, and split
at max_active via Python slices. -/
def Surveyor.spill_paths (cfg : Config) (active spilled : List Path) :
    List Path × List Path :=
  let prioritized := prioritize_paths cfg.comparator (active ++ spilled)
  (pyTake cfg.maxActive prioritized, pyDrop cfg.maxActive prioritized)

/-- Source suspend_path: suspends the path (with do_pickle set from the
pickle_paths configuration) and returns it. -/
def Surveyor.suspend_path (cfg : Config) (p : Path) : Path :=
  Path.suspend cfg.picklePaths p

/-- Source spill: compute spill_paths, then resume every new active path that
was in the old spilled list, suspend every new spilled path that was in the
old active list, and replace the two lists. The Python loops mutate the path
objects held at unchanged positions of the two new lists, so they are maps
over those lists. -/
def Surveyor.spill (cfg : Config) (s : Surveyor) : Surveyor :=
  let ns := Surveyor.spill_paths cfg s.active s.spilled
  let newActive := ns.1.map (fun p => if memIdB p s.spilled then Path.resume p else p)
  let newSpilled := ns.2.map (fun p => if memIdB p s.active then Surveyor.suspend_path cfg p else p)
  { s with active := newActive, spilled := newSpilled }

/-- Source filter_path, the default filter predicate: keep every path. -/
def filter_path (_p : Path) : Bool := true

/-- Source filter_paths: list comprehension keeping the paths on which the
filter predicate holds. -/
def Surveyor.filter_paths (cfg : Config) (paths : List Path) : List Path :=
  paths.filter cfg.keep

/-- Source filter: filters the active paths in place. -/
def Surveyor.filter (cfg : Config) (s : Surveyor) : Surveyor :=
  { s with active := Surveyor.filter_paths cfg s.active }

/-- Sequential classification loop of source tick (the max_concurrency <= 1
branch; the parallel branch applies the identical per-path classification in
completion order). Arguments: remaining paths, new_active accumulator, and the
deadended and errored lists, which the Python loop appends to directly. -/
def tickGo (cfg : Config) :
    List Path → List Path → List DeadEntry → List Path →
    List Path × List DeadEntry × List Path
  | [], na, dd, er => (na, dd, er)
  | p :: rest, na, dd, er =>
    let successors := cfg.advance p
    let er' := if 0 < p.errored.length then er ++ [Surveyor.suspend_path cfg p] else er
    let dd' :=
      if successors.length = 0 then
        if cfg.saveDeadends then dd ++ [DeadEntry.full (Surveyor.suspend_path cfg p)]
        else dd ++ [DeadEntry.lineage p.backtrace]
      else dd
    tickGo cfg rest (na ++ successors) dd' er'

/-- Source tick: classify every active path and replace active with the
collected successors. -/
def Surveyor.tick (cfg : Config) (s : Surveyor) : Surveyor :=
  let r := tickGo cfg s.active [] s.deadended s.errored
  { s with active := r.1, deadended := r.2.1, errored := r.2.2 }

/-- Source done: true exactly when the active list is empty. -/
def Surveyor.done (s : Surveyor) : Bool :=
  s.active.length == 0

/-- Source pre_tick: provided for analyses, no default effect. -/
def Surveyor.pre_tick (s : Surveyor) : Surveyor := s

/-- Source post_tick: provided for analyses, no default effect. -/
def Surveyor.post_tick (s : Surveyor) : Surveyor := s

/-- Source step: pre_tick, tick, filter, spill, post_tick, then increment the
step counter. -/
def Surveyor.step (cfg : Config) (s : Surveyor) : Surveyor :=
  let s1 := Surveyor.post_tick (Surveyor.spill cfg (Surveyor.filter cfg (Surveyor.tick cfg (Surveyor.pre_tick s))))
  { s1 with currentStep := s1.currentStep + 1 }

/-- Source constructor: stores the configuration values exactly as given,
performing no validation of max_active or max_concurrency, creates the five
empty lists, seeds active with freshly constructed paths, and sets the step
counter to zero. -/
def Surveyor.init (_cfg : Config) (seeds : List Path) : Surveyor :=
  { active := seeds, deadended := [], spilled := [], errored := [],
    suspended := [], currentStep := 0 }

/-- Reason the run loop returned control to the caller. -/
inductive RunExit where
  | done
  | budget
  | stopped
  deriving DecidableEq

/-- Negation of the Python loop guard part (n is None or n > 0). -/
def budgetExhausted (n : Option Int) : Bool :=
  match n with
  | none => false
  | some m => decide (m ≤ 0)

/-- One decrement of the optional step budget (n -= 1 when n is not None). -/
def decOpt (n : Option Int) : Option Int :=
  n.map (fun m => m - 1)

/-- Iterate of step, counting completed steps from the initial state. -/
def stepIter (cfg : Config) : Nat → Surveyor → Surveyor
  | 0, s => s
  | k + 1, s => stepIter cfg k (Surveyor.step cfg s)

/-- Source run: loop while not done and the budget allows, performing one step
per iteration; after each step the global STOP_RUNS flag is read (stopS i is
its value as observed after the step of iteration i; the flags are set
externally, possibly mid run), and a true value breaks out of the loop; the
PAUSE_RUNS flag (pauseS) is read next but only drops into an interactive
debugger, changing no scheduler state; finally the budget is decremented.
The fuel argument bounds the iterations, modelling possible divergence of the
Python loop as none. -/
def Surveyor.run (cfg : Config) (stopS pauseS : Nat → Bool) :
    Nat → Surveyor → Option Int → Nat → Option (Surveyor × RunExit)
  | 0, _, _, _ => none
  | fuel + 1, s, n, i =>
    if s.done then some (s, RunExit.done)
    else if budgetExhausted n then some (s, RunExit.budget)
    else
      let s1 := Surveyor.step cfg s
      if stopS i then some (s1, RunExit.stopped)
      else
        let _ := pauseS i
        Surveyor.run cfg stopS pauseS fuel s1 (decOpt n) (i + 1)

/-- Classification loop written from the words of spec section 4.3: step 1
advance, step 2 archive into errored via suspend when the error exits are
non-empty (independent of successors), step 3 archive into deadended when the
successors are empty (full suspended path when saveDeadends, else the
lineage-only record), step 4 otherwise add all successors to the new active
set. -/
def tickSpecGo (cfg : Config) :
    List Path → List Path → List DeadEntry → List Path →
    List Path × List DeadEntry × List Path
  | [], na, dd, er => (na, dd, er)
  | p :: rest, na, dd, er =>
    let successors := cfg.advance p
    let er' := if p.errored ≠ [] then er ++ [Surveyor.suspend_path cfg p] else er
    if successors = [] then
      let dd' :=
        if cfg.saveDeadends then dd ++ [DeadEntry.full (Surveyor.suspend_path cfg p)]
        else dd ++ [DeadEntry.lineage p.backtrace]
      tickSpecGo cfg rest na dd' er'
    else
      tickSpecGo cfg rest (na ++ successors) dd er'

/-- Ticker written from the words of spec section 4.3. -/
def tickSpec (cfg : Config) (s : Surveyor) : Surveyor :=
  let r := tickSpecGo cfg s.active [] s.deadended s.errored
  { s with active := r.1, deadended := r.2.1, errored := r.2.2 }

/-- Spiller written from the words of spec section 4.5: step 1 concatenate
active and spilled, step 2 apply the priority ordering, step 3 split at
maxActive, step 4 resume every new active path previously spilled, step 5
suspend (with pickleOnSpill) every new spilled path previously active, then
replace both sets. -/
def spillSpec (cfg : Config) (s : Surveyor) : Surveyor :=
  let candidates := s.active ++ s.spilled
  let prioritized := prioritize_paths cfg.comparator candidates
  let newActive := pyTake cfg.maxActive prioritized
  let newSpilled := pyDrop cfg.maxActive prioritized
  let promoted := newActive.map (fun p => if memIdB p s.spilled then Path.resume p else p)
  let demoted := newSpilled.map (fun p => if memIdB p s.active then Path.suspend cfg.picklePaths p else p)
  { s with active := promoted, spilled := demoted }

/-- Classification loop of source tick under a fallible advance operation:
advE p either returns the successors or raises a fault (a bare Nat). A
fault propagates immediately; the partially appended deadended and errored
lists stay as they are on the Python instance, and active is not reassigned,
so the error value carries the instance state at the moment of the fault. -/
def tickEGo (cfg : Config) (advE : Path → Except Nat (List Path)) (base : Surveyor) :
    List Path → List Path → List DeadEntry → List Path →
    Except (Nat × Surveyor) Surveyor
  | [], na, dd, er => Except.ok { base with active := na, deadended := dd, errored := er }
  | p :: rest, na, dd, er =>
    match advE p with
    | Except.error f => Except.error (f, { base with deadended := dd, errored := er })
    | Except.ok successors =>
      let er' := if 0 < p.errored.length then er ++ [Surveyor.suspend_path cfg p] else er
      let dd' :=
        if successors.length = 0 then
          if cfg.saveDeadends then dd ++ [DeadEntry.full (Surveyor.suspend_path cfg p)]
          else dd ++ [DeadEntry.lineage p.backtrace]
        else dd
      tickEGo cfg advE base rest (na ++ successors) dd' er'

/-- Source tick under a fallible advance operation. -/
def Surveyor.tickE (cfg : Config) (advE : Path → Except Nat (List Path)) (s : Surveyor) :
    Except (Nat × Surveyor) Surveyor :=
  tickEGo cfg advE s s.active [] s.deadended s.errored

/-- Source step under a fallible advance operation: a fault raised inside tick
skips filter, spill, post_tick and the counter increment, and propagates. -/
def Surveyor.stepE (cfg : Config) (advE : Path → Except Nat (List Path)) (s : Surveyor) :
    Except (Nat × Surveyor) Surveyor :=
  match Surveyor.tickE cfg advE (Surveyor.pre_tick s) with
  | Except.error e => Except.error e
  | Except.ok s1 =>
    let s2 := Surveyor.post_tick (Surveyor.spill cfg (Surveyor.filter cfg s1))
    Except.ok { s2 with currentStep := s2.currentStep + 1 }

/-- Source run under a fallible advance operation: a fault raised by step
propagates out of run unmasked (run has no handler around self.step()). -/
def Surveyor.runE (cfg : Config) (advE : Path → Except Nat (List Path))
    (stopS pauseS : Nat → Bool) :
    Nat → Surveyor → Option Int → Nat →
    Option (Except (Nat × Surveyor) (Surveyor × RunExit))
  | 0, _, _, _ => none
  | fuel + 1, s, n, i =>
    if s.done then some (Except.ok (s, RunExit.done))
    else if budgetExhausted n then some (Except.ok (s, RunExit.budget))
    else
      match Surveyor.stepE cfg advE s with
      | Except.error e => some (Except.error e)
      | Except.ok s1 =>
        if stopS i then some (Except.ok (s1, RunExit.stopped))
        else
          let _ := pauseS i
          Surveyor.runE cfg advE stopS pauseS fuel s1 (decOpt n) (i + 1)

/-- Modelled from the spec: Path.continue_path lives in path.py, which is
absent from src, and constructs fresh successor path objects, so object
identity makes every successor distinct from each other and from every path
the scheduler already holds (the spec: reference and handle semantics, the
scheduler never duplicates state). FreshStep states that contract for one
tick from state s. -/
def FreshStep (cfg : Config) (s : Surveyor) : Prop :=
  (pids (s.active.flatMap cfg.advance)).Nodup ∧
  ∀ q ∈ s.active.flatMap cfg.advance, q.pid ∉ pids (s.active ++ s.spilled ++ s.suspended)

/-- Reachable Surveyor states: constructed with identity-distinct seed paths
(the constructor builds a fresh path object per given exit), then stepped, each
step advancing under the freshness contract of the collaborator. -/
inductive Reachable (cfg : Config) : Surveyor → Prop where
  | init (seeds : List Path) (hnd : (pids seeds).Nodup) : Reachable cfg (Surveyor.init cfg seeds)
  | step (s : Surveyor) (h : Reachable cfg s) (hf : FreshStep cfg s) : Reachable cfg (Surveyor.step cfg s)

/-- No identity occurs twice across the three live collections: the invariant
from which pairwise disjointness of active, spilled and suspended follows. -/
def setsNodup (s : Surveyor) : Prop :=
  (pids s.active ++ (pids s.spilled ++ pids s.suspended)).Nodup

/-- Concrete paths used by the closed witness and counterexample theorems. -/
def pA : Path := { pid := 1, errored := [], backtrace := [1], suspended := false, pickled := false }

/-- Second concrete path. -/
def pB : Path := { pid := 2, errored := [], backtrace := [2], suspended := false, pickled := false }

/-- Third concrete path. -/
def pC : Path := { pid := 3, errored := [], backtrace := [3], suspended := false, pickled := false }

/-- A concrete path in suspended form, sitting in a spilled list. -/
def pBspilled : Path := { pid := 2, errored := [], backtrace := [2], suspended := true, pickled := false }

/-- A concrete path carrying one recorded error exit. -/
def pErr : Path := { pid := 4, errored := [9], backtrace := [4], suspended := false, pickled := false }

/-- A concrete seed path with identity zero. -/
def p0 : Path := { pid := 0, errored := [], backtrace := [0], suspended := false, pickled := false }

/-- First successor path produced by the concrete advance used below. -/
def qA : Path := { pid := 10, errored := [], backtrace := [0, 10], suspended := false, pickled := false }

/-- Second successor path produced by the concrete advance used below. -/
def qB : Path := { pid := 11, errored := [], backtrace := [0, 11], suspended := false, pickled := false }

/-- Base concrete configuration: sequential, defaults for the pluggable parts,
an advance that yields no successors. -/
def baseCfg : Config :=
  { maxActive := 8, maxConcurrency := 1, picklePaths := false, saveDeadends := true,
    comparator := path_comparator, advance := fun _ => [], keep := filter_path }

/-- Configuration of scenario C: maxActive 2, default comparator. -/
def cfgC4 : Config := { baseCfg with maxActive := 2 }

/-- State of scenario C: three active paths. -/
def sC4 : Surveyor := Surveyor.init cfgC4 [pA, pB, pC]

/-- Configuration under which a spilled path is promoted back into active. -/
def cfgPromote : Config := { baseCfg with maxActive := 2 }

/-- State with one active path and one suspended spilled path. -/
def sPromote : Surveyor := { Surveyor.init cfgPromote [pA] with spilled := [pBspilled] }

/-- Configuration under which an active path is demoted to spilled. -/
def cfgDemote : Config := { baseCfg with maxActive := 1 }

/-- State with two active paths, one above the cap. -/
def sDemote : Surveyor := Surveyor.init cfgDemote [pA, pC]

/-- State with a single path that both errors and deadends. -/
def sW10 : Surveyor := Surveyor.init baseCfg [pErr]

/-- Configuration with non-positive maxActive and maxConcurrency. -/
def cfgBad : Config := { baseCfg with maxActive := 0, maxConcurrency := 0 }

/-- Seed path of the construction counterexample. -/
def pSeed : Path := { pid := 7, errored := [], backtrace := [7], suspended := false, pickled := false }

/-- Configuration whose advance branches the seed into two fresh successors,
with a cap of one, so that one successor is spilled. -/
def cfgW6 : Config := { baseCfg with maxActive := 1, advance := fun p => if p.pid == 0 then [qA, qB] else [] }

/-- One reachable step from the seeded state under cfgW6. -/
def sW6 : Surveyor := Surveyor.step cfgW6 (Surveyor.init cfgW6 [p0])

/-- External flag stream that is always raised. -/
def flagOn : Nat → Bool := fun _ => true

/-- External flag stream that is never raised. -/
def flagOff : Nat → Bool := fun _ => false

/-- Configuration whose advance keeps the path alive forever. -/
def cfgW5 : Config := { baseCfg with advance := fun p => [p] }

/-- Not-yet-done state for the run witnesses. -/
def sW5 : Surveyor := Surveyor.init cfgW5 [pA]

/-- Fallible advance: succeeds with no successors on identity zero, raises
fault 42 on every other path. -/
def advW8 : Path → Except Nat (List Path) :=
  fun p => if p.pid == 0 then Except.ok [] else Except.error 42

/-- State on which advW8 first deadends one path, then faults. -/
def sW8 : Surveyor := Surveyor.init baseCfg [p0, pA]

/-- Instance state at the moment the fault propagates: the deadend already
archived stays archived, active not reassigned. -/
def sW8post : Surveyor := { sW8 with deadended := [DeadEntry.full (Surveyor.suspend_path baseCfg p0)] }

/-- The suspend collaborator call keeps the identity of the path. -/
theorem Path.suspend_pid (b : Bool) (p : Path) : (Path.suspend b p).pid = p.pid := rfl

/-- The resume collaborator call keeps the identity of the path. -/
theorem Path.resume_pid (p : Path) : (Path.resume p).pid = p.pid := rfl

/-- The new_active accumulator of the tick loop collects exactly the
successors of the processed paths, in order. -/
theorem tickGo_active (cfg : Config) (l : List Path) :
    ∀ (na : List Path) (dd : List DeadEntry) (er : List Path),
      (tickGo cfg l na dd er).1 = na ++ l.flatMap cfg.advance := by
  induction l with
  | nil => intro na dd er; simp [tickGo]
  | cons p rest ih => intro na dd er; simp [tickGo, ih, List.append_assoc]

/-- The errored list after the tick loop: the old entries followed by the
suspended form of every processed path whose error exits are non-empty. -/
theorem tickGo_errored (cfg : Config) (l : List Path) :
    ∀ (na : List Path) (dd : List DeadEntry) (er : List Path),
      (tickGo cfg l na dd er).2.2 =
        er ++ (l.filter fun p => 0 < p.errored.length).map (Surveyor.suspend_path cfg) := by
  induction l with
  | nil => intro na dd er; simp [tickGo]
  | cons p rest ih =>
    intro na dd er
    by_cases h : 0 < p.errored.length <;>
      simp [tickGo, ih, h, List.filter_cons, List.append_assoc]

/-- The deadended list after the tick loop: the old entries followed by one
entry per processed path without successors, full when save_deadends is set
and lineage-only otherwise. -/
theorem tickGo_deadended (cfg : Config) (l : List Path) :
    ∀ (na : List Path) (dd : List DeadEntry) (er : List Path),
      (tickGo cfg l na dd er).2.1 =
        dd ++ (l.filter fun p => (cfg.advance p).length = 0).map
          (fun p => if cfg.saveDeadends then DeadEntry.full (Surveyor.suspend_path cfg p)
                    else DeadEntry.lineage p.backtrace) := by
  induction l with
  | nil => intro na dd er; simp [tickGo]
  | cons p rest ih =>
    intro na dd er
    by_cases h : cfg.advance p = [] <;>
      by_cases hs : cfg.saveDeadends <;>
        simp [tickGo, ih, h, hs, List.filter_cons, List.length_eq_zero, List.append_assoc]

/-- The source tick loop and the loop written from the spec words compute the
same result: the only textual difference is that the source extends new_active
unconditionally, which is the identity extension when there are no
successors. -/
theorem tickGo_eq_spec (cfg : Config) (l : List Path) :
    ∀ (na : List Path) (dd : List DeadEntry) (er : List Path),
      tickGo cfg l na dd er = tickSpecGo cfg l na dd er := by
  induction l with
  | nil => intro na dd er; rfl
  | cons p rest ih =>
    intro na dd er
    by_cases hs : cfg.advance p = [] <;>
      by_cases he : p.errored = [] <;>
        simp [tickGo, tickSpecGo, hs, he, ih, List.length_eq_zero, List.length_pos]

/-- C1: tick classifies every active path per the spec: a path with non-empty
error exits is suspended and appended to errored independent of its
successors; a path with no successors is archived into deadended, full when
saveDeadends and lineage-only otherwise; all successors of all previously
active paths, and nothing else, form the new active set; spilled and
suspended are untouched. -/
theorem tick_classifies_paths (cfg : Config) (s : Surveyor) :
    Surveyor.tick cfg s = tickSpec cfg s
  ∧ (Surveyor.tick cfg s).active = s.active.flatMap cfg.advance
  ∧ (Surveyor.tick cfg s).spilled = s.spilled
  ∧ (Surveyor.tick cfg s).suspended = s.suspended := by
  refine ⟨?_, ?_, rfl, rfl⟩
  · simp [Surveyor.tick, tickSpec, tickGo_eq_spec]
  · simp [Surveyor.tick, tickGo_active]

/-- C2: immediately after spill, the active list length is bounded by
maxActive, for every state and every non-negative maxActive. -/
theorem spill_bounds_active (cfg : Config) (s : Surveyor) (h : 0 ≤ cfg.maxActive) :
    ((Surveyor.spill cfg s).active.length : Int) ≤ cfg.maxActive := by
  have hlen : (Surveyor.spill cfg s).active.length ≤ cfg.maxActive.toNat := by
    simp [Surveyor.spill, Surveyor.spill_paths, pyTake, pyBound, if_pos h]
  calc ((Surveyor.spill cfg s).active.length : Int)
      ≤ (cfg.maxActive.toNat : Int) := by exact_mod_cast hlen
    _ = cfg.maxActive := Int.toNat_of_nonneg h

/-- C10: a path with recorded error exits and no successors is archived by a
single tick into both terminal collections: its suspended handle is appended
to errored and (with saveDeadends set) the identical suspended handle is
appended to deadended. -/
theorem error_deadend_double_archive (cfg : Config) (s : Surveyor) (p : Path)
    (hsave : cfg.saveDeadends = true) (hmem : p ∈ s.active)
    (herr : p.errored ≠ []) (hsucc : cfg.advance p = []) :
    Surveyor.suspend_path cfg p ∈ (Surveyor.tick cfg s).errored
  ∧ DeadEntry.full (Surveyor.suspend_path cfg p) ∈ (Surveyor.tick cfg s).deadended := by
  constructor
  · have : (Surveyor.tick cfg s).errored =
        s.errored ++ (s.active.filter fun q => 0 < q.errored.length).map (Surveyor.suspend_path cfg) := by
      simp [Surveyor.tick, tickGo_errored]
    rw [this]
    refine List.mem_append_right _ (List.mem_map_of_mem _ ?_)
    exact List.mem_filter.mpr ⟨hmem, by simpa [List.length_pos] using herr⟩
  · have : (Surveyor.tick cfg s).deadended =
        s.deadended ++ (s.active.filter fun q => (cfg.advance q).length = 0).map
          (fun q => if cfg.saveDeadends then DeadEntry.full (Surveyor.suspend_path cfg q)
                    else DeadEntry.lineage q.backtrace) := by
      simp [Surveyor.tick, tickGo_deadended]
    rw [this]
    have hm : p ∈ s.active.filter fun q => (cfg.advance q).length = 0 :=
      List.mem_filter.mpr ⟨hmem, by simp [hsucc]⟩
    refine List.mem_append_right _ ?_
    have hx := List.mem_map_of_mem
      (fun q => if cfg.saveDeadends then DeadEntry.full (Surveyor.suspend_path cfg q)
                else DeadEntry.lineage q.backtrace) hm
    simpa [hsave] using hx

/-- Witness for C2: three active paths against a cap of two. -/
theorem spill_bounds_active_witness :
    (0 : Int) ≤ cfgC4.maxActive ∧ ((Surveyor.spill cfgC4 sC4).active.length : Int) ≤ cfgC4.maxActive :=
  ⟨by decide, spill_bounds_active cfgC4 sC4 (by decide)⟩

/-- Witness for C10: the path with an error exit and no successors lands,
suspended, in both errored and deadended of the ticked state. -/
theorem error_deadend_double_archive_witness :
    Surveyor.suspend_path baseCfg pErr ∈ (Surveyor.tick baseCfg sW10).errored
  ∧ DeadEntry.full (Surveyor.suspend_path baseCfg pErr) ∈ (Surveyor.tick baseCfg sW10).deadended :=
  error_deadend_double_archive baseCfg sW10 pErr rfl (by decide) (by decide) rfl

/-- The two Python slices of a split recombine to the sliced list. -/
theorem pyTake_append_pyDrop {α : Type} (k : Int) (l : List α) :
    pyTake k l ++ pyDrop k l = l :=
  List.take_append_drop _ l

/-- Mapping a function that keeps identities does not change the identity
list. -/
theorem pids_map_pid_preserving (f : Path → Path) (hf : ∀ p, (f p).pid = p.pid) (l : List Path) :
    pids (l.map f) = pids l := by
  induction l with
  | nil => rfl
  | cons x xs ih => simp [pids, hf x] at ih ⊢; exact ih

/-- The conditional resume performed by spill keeps identities. -/
theorem resume_if_pid (sp : List Path) (p : Path) :
    (if memIdB p sp then Path.resume p else p).pid = p.pid := by
  by_cases h : memIdB p sp = true <;> simp [h, Path.resume]

/-- The conditional suspend performed by spill keeps identities. -/
theorem suspend_if_pid (cfg : Config) (ac : List Path) (p : Path) :
    (if memIdB p ac then Surveyor.suspend_path cfg p else p).pid = p.pid := by
  by_cases h : memIdB p ac = true <;> simp [h, Surveyor.suspend_path, Path.suspend]

/-- Inserting under the relation induced by the default comparator puts the
element in front: the relation holds of every pair. -/
theorem orderedInsert_default (x : Path) (l : List Path) :
    List.orderedInsert (fun a b => path_comparator a b ≤ 0) x l = x :: l := by
  cases l with
  | nil => rfl
  | cons y ys => simp [List.orderedInsert, path_comparator]

/-- Stable sorting under the always-equal default comparator is the
identity. -/
theorem prioritize_default_id (l : List Path) :
    prioritize_paths path_comparator l = l := by
  induction l with
  | nil => rfl
  | cons x xs ih =>
    simp only [prioritize_paths, List.insertionSort] at ih ⊢
    rw [ih, orderedInsert_default]

/-- C4: the default comparator reports every pair equal, prioritization is
then the identity on the candidate list, and spill degenerates to truncation
of active ++ spilled in original order; with maxActive 2 and three active
paths, after spill active holds exactly the first two paths in order and
spilled holds the third. -/
theorem default_comparator_truncation :
    (∀ l : List Path, prioritize_paths path_comparator l = l)
  ∧ (∀ (cfg : Config) (s : Surveyor), cfg.comparator = path_comparator →
      pids (Surveyor.spill cfg s).active = pids (pyTake cfg.maxActive (s.active ++ s.spilled))
      ∧ pids (Surveyor.spill cfg s).spilled = pids (pyDrop cfg.maxActive (s.active ++ s.spilled)))
  ∧ pids (Surveyor.spill cfgC4 sC4).active = [1, 2]
  ∧ pids (Surveyor.spill cfgC4 sC4).spilled = [3] := by
  refine ⟨prioritize_default_id, ?_, by decide, by decide⟩
  intro cfg s hcmp
  constructor
  · have h1 : (Surveyor.spill cfg s).active
        = (pyTake cfg.maxActive (prioritize_paths cfg.comparator (s.active ++ s.spilled))).map
            (fun p => if memIdB p s.spilled then Path.resume p else p) := rfl
    rw [h1, pids_map_pid_preserving _ (resume_if_pid s.spilled), hcmp, prioritize_default_id]
  · have h2 : (Surveyor.spill cfg s).spilled
        = (pyDrop cfg.maxActive (prioritize_paths cfg.comparator (s.active ++ s.spilled))).map
            (fun p => if memIdB p s.active then Surveyor.suspend_path cfg p else p) := rfl
    rw [h2, pids_map_pid_preserving _ (suspend_if_pid cfg s.active), hcmp, prioritize_default_id]

/-- Witness for C4: the truncation identity instantiated at scenario C. -/
theorem default_comparator_truncation_witness :
    pids (Surveyor.spill cfgC4 sC4).active = pids (pyTake cfgC4.maxActive (sC4.active ++ sC4.spilled)) :=
  (default_comparator_truncation.2.1 cfgC4 sC4 rfl).1

/-- C3: spill is exactly the spec algorithm: prioritized concatenation of
active and spilled, first maxActive entries as the new active set, remainder
as the new spilled set; every new active path previously spilled has resume
invoked on it (observable: no longer suspended), every new spilled path
previously active has suspend with pickleOnSpill invoked on it (observable:
suspended, pickle flag as configured), before the two sets are replaced. -/
theorem spill_matches_spec (cfg : Config) (s : Surveyor) :
    Surveyor.spill cfg s = spillSpec cfg s
  ∧ pids (Surveyor.spill cfg s).active = pids (Surveyor.spill_paths cfg s.active s.spilled).1
  ∧ pids (Surveyor.spill cfg s).spilled = pids (Surveyor.spill_paths cfg s.active s.spilled).2
  ∧ (∀ p ∈ (Surveyor.spill cfg s).active, memIdB p s.spilled = true → p.suspended = false)
  ∧ (∀ p ∈ (Surveyor.spill cfg s).spilled, memIdB p s.active = true →
       p.suspended = true ∧ p.pickled = cfg.picklePaths) := by
  refine ⟨rfl, pids_map_pid_preserving _ (resume_if_pid s.spilled) _,
    pids_map_pid_preserving _ (suspend_if_pid cfg s.active) _, ?_, ?_⟩
  · intro p hp hmem
    rcases List.mem_map.mp hp with ⟨q, _hq, rfl⟩
    by_cases h : memIdB q s.spilled = true
    · rw [if_pos h]; rfl
    · rw [if_neg h] at hmem
      have : (q.pid == q.pid) = true := by simp
      exact absurd hmem (by simpa [memIdB] using h)
  · intro p hp hmem
    rcases List.mem_map.mp hp with ⟨q, _hq, rfl⟩
    by_cases h : memIdB q s.active = true
    · rw [if_pos h]; exact ⟨rfl, rfl⟩
    · rw [if_neg h] at hmem
      exact absurd hmem (by simpa [memIdB] using h)

/-- Witness for C3 at concrete inputs: a spilled path promoted into active is
resumed, and an active path demoted to spilled is suspended with the pickle
flag of the configuration. -/
theorem spill_matches_spec_witness :
    (Path.resume pBspilled).suspended = false
  ∧ ((Surveyor.suspend_path cfgDemote pC).suspended = true
      ∧ (Surveyor.suspend_path cfgDemote pC).pickled = cfgDemote.picklePaths) :=
  ⟨(spill_matches_spec cfgPromote sPromote).2.2.2.1 (Path.resume pBspilled) (by decide) (by decide),
   (spill_matches_spec cfgDemote sDemote).2.2.2.2 (Surveyor.suspend_path cfgDemote pC) (by decide) (by decide)⟩

/-- C7 counterexample: a Surveyor constructed with maxActive 0 and
maxConcurrency 0 raises nothing and is a usable instance: the seed is active,
the counter is zero, step completes and increments the counter, and spill
operates (truncating active to the zero cap). The constructor of the source
performs no validation at all. -/
theorem construction_accepts_nonpositive_cex :
    (Surveyor.init cfgBad [pSeed]).active = [pSeed]
  ∧ (Surveyor.init cfgBad [pSeed]).currentStep = 0
  ∧ (Surveyor.step cfgBad (Surveyor.init cfgBad [pSeed])).currentStep = 1
  ∧ (Surveyor.spill cfgBad (Surveyor.init cfgBad [pSeed])).active = [] := by
  refine ⟨rfl, rfl, rfl, by decide⟩

/-- C7 amended: construction never fails: for every configuration, including
non-positive maxActive or maxConcurrency, the constructor returns the seeded
instance with empty collections and counter zero, and the instance is usable
(with maxActive 0, spill leaves active empty). -/
theorem construction_never_fails (cfg : Config) (seeds : List Path) :
    Surveyor.init cfg seeds =
      { active := seeds, deadended := [], spilled := [], errored := [],
        suspended := [], currentStep := 0 }
  ∧ (cfg.maxActive = 0 → (Surveyor.spill cfg (Surveyor.init cfg seeds)).active = []) := by
  refine ⟨rfl, fun h => ?_⟩
  simp [Surveyor.spill, Surveyor.spill_paths, pyTake, pyBound, h]

/-- Witness for the amended C7 at the non-positive configuration. -/
theorem construction_never_fails_witness :
    (Surveyor.spill cfgBad (Surveyor.init cfgBad [pSeed])).active = [] :=
  (construction_never_fails cfgBad [pSeed]).2 rfl

/-- One unfolding of the run loop. -/
theorem run_succ (cfg : Config) (stopS pauseS : Nat → Bool) (fuel : Nat) (s : Surveyor)
    (n : Option Int) (i : Nat) :
    Surveyor.run cfg stopS pauseS (fuel + 1) s n i =
      if s.done then some (s, RunExit.done)
      else if budgetExhausted n then some (s, RunExit.budget)
      else
        if stopS i then some (Surveyor.step cfg s, RunExit.stopped)
        else Surveyor.run cfg stopS pauseS fuel (Surveyor.step cfg s) (decOpt n) (i + 1) := rfl

/-- A successful return of run is the k-fold iterate of step for some k, and
the exit label characterizes why control returned: done means the returned
state has empty active, budget means a bounded n was exhausted by the steps
taken, stopped means the stop flag was observed true right after the last
completed step, entered with done still false. -/
theorem run_some_spec (cfg : Config) (stopS pauseS : Nat → Bool) :
    ∀ (fuel : Nat) (s : Surveyor) (n : Option Int) (i : Nat) (out : Surveyor) (ex : RunExit),
      Surveyor.run cfg stopS pauseS fuel s n i = some (out, ex) →
      ∃ k : Nat, out = stepIter cfg k s
        ∧ (ex = RunExit.done → out.done = true)
        ∧ (ex = RunExit.budget → out.done = false ∧ ∃ m : Int, n = some m ∧ m ≤ (k : Int))
        ∧ (ex = RunExit.stopped → ∃ j : Nat, k = j + 1 ∧ stopS (i + j) = true
            ∧ (stepIter cfg j s).done = false) := by
  intro fuel
  induction fuel with
  | zero =>
    intro s n i out ex h
    simp [Surveyor.run] at h
  | succ fuel ih =>
    intro s n i out ex h
    rw [run_succ] at h
    by_cases hd : s.done = true
    · rw [if_pos hd] at h
      obtain ⟨rfl, rfl⟩ : s = out ∧ RunExit.done = ex := by
        simpa using h
      refine ⟨0, rfl, fun _ => hd, ?_, ?_⟩
      · intro hex; cases hex
      · intro hex; cases hex
    · rw [if_neg hd] at h
      replace hd : s.done = false := by
        cases hval : s.done
        · rfl
        · exact absurd hval hd
      by_cases hb : budgetExhausted n = true
      · rw [if_pos hb] at h
        obtain ⟨rfl, rfl⟩ : s = out ∧ RunExit.budget = ex := by
          simpa using h
        refine ⟨0, rfl, ?_, fun _ => ⟨hd, ?_⟩, ?_⟩
        · intro hex; cases hex
        · cases n with
          | none => simp [budgetExhausted] at hb
          | some m =>
            refine ⟨m, rfl, ?_⟩
            have : m ≤ 0 := by simpa [budgetExhausted] using hb
            omega
        · intro hex; cases hex
      · rw [if_neg hb] at h
        by_cases hs : stopS i = true
        · rw [if_pos hs] at h
          obtain ⟨rfl, rfl⟩ : Surveyor.step cfg s = out ∧ RunExit.stopped = ex := by
            simpa using h
          refine ⟨1, rfl, ?_, ?_, fun _ => ⟨0, rfl, by simpa using hs, hd⟩⟩
          · intro hex; cases hex
          · intro hex; cases hex
        · rw [if_neg hs] at h
          obtain ⟨k, hk, hdone, hbud, hstop⟩ := ih (Surveyor.step cfg s) (decOpt n) (i + 1) out ex h
          refine ⟨k + 1, hk, hdone, ?_, ?_⟩
          · intro hex
            obtain ⟨ho, m, hm, hle⟩ := hbud hex
            refine ⟨ho, ?_⟩
            cases n with
            | none => simp [decOpt] at hm
            | some m' =>
              have : m' - 1 = m := by simpa [decOpt] using hm
              exact ⟨m', rfl, by push_cast; omega⟩
          · intro hex
            obtain ⟨j, hj, hsj, hdj⟩ := hstop hex
            refine ⟨j + 1, by omega, ?_, hdj⟩
            have harg : i + 1 + j = i + (j + 1) := by omega
            rwa [harg] at hsj

/-- C5: the run loop: while done is false and the budget is unset or
positive, it performs exactly one step per iteration, then checks the stop
flag (returning right after the completed step when it is observed true),
then the pause flag, then decrements a bounded budget; it returns exactly
when done holds, when the budget reaches zero, or on an observed stop, and
every returned state is an iterate of step characterized by its exit label. -/
theorem run_loop_behavior (cfg : Config) (stopS pauseS : Nat → Bool) :
    (∀ (fuel : Nat) (s : Surveyor) (n : Option Int) (i : Nat), s.done = true →
       Surveyor.run cfg stopS pauseS (fuel + 1) s n i = some (s, RunExit.done))
  ∧ (∀ (fuel : Nat) (s : Surveyor) (n : Option Int) (i : Nat),
       s.done = false → budgetExhausted n = true →
       Surveyor.run cfg stopS pauseS (fuel + 1) s n i = some (s, RunExit.budget))
  ∧ (∀ (fuel : Nat) (s : Surveyor) (n : Option Int) (i : Nat),
       s.done = false → budgetExhausted n = false → stopS i = true →
       Surveyor.run cfg stopS pauseS (fuel + 1) s n i = some (Surveyor.step cfg s, RunExit.stopped))
  ∧ (∀ (fuel : Nat) (s : Surveyor) (n : Option Int) (i : Nat),
       s.done = false → budgetExhausted n = false → stopS i = false →
       Surveyor.run cfg stopS pauseS (fuel + 1) s n i =
         Surveyor.run cfg stopS pauseS fuel (Surveyor.step cfg s) (decOpt n) (i + 1))
  ∧ (∀ (fuel : Nat) (s : Surveyor) (n : Option Int) (i : Nat) (out : Surveyor) (ex : RunExit),
       Surveyor.run cfg stopS pauseS fuel s n i = some (out, ex) →
       ∃ k : Nat, out = stepIter cfg k s
         ∧ (ex = RunExit.done → out.done = true)
         ∧ (ex = RunExit.budget → out.done = false ∧ ∃ m : Int, n = some m ∧ m ≤ (k : Int))
         ∧ (ex = RunExit.stopped → ∃ j : Nat, k = j + 1 ∧ stopS (i + j) = true
             ∧ (stepIter cfg j s).done = false)) := by
  refine ⟨?_, ?_, ?_, ?_, run_some_spec cfg stopS pauseS⟩
  · intro fuel s n i hd
    rw [run_succ, if_pos hd]
  · intro fuel s n i hd hb
    rw [run_succ, if_neg (by simp [hd]), if_pos hb]
  · intro fuel s n i hd hb hs
    rw [run_succ, if_neg (by simp [hd]), if_neg (by simp [hb]), if_pos hs]
  · intro fuel s n i hd hb hs
    rw [run_succ, if_neg (by simp [hd]), if_neg (by simp [hb]), if_neg (by simp [hs])]

/-- Witness for C5, scenario D: with the stop flag raised externally and done
still false, run returns right after the one completed step, reporting
stopped, and the active set is left non-empty. -/
theorem run_loop_behavior_witness :
    Surveyor.run cfgW5 flagOn flagOff 5 sW5 none 0 = some (Surveyor.step cfgW5 sW5, RunExit.stopped)
  ∧ (Surveyor.step cfgW5 sW5).active ≠ [] :=
  ⟨(run_loop_behavior cfgW5 flagOn flagOff).2.2.1 4 sW5 none 0 (by decide) rfl rfl, by decide⟩

/-- Map distributes identities over concatenation. -/
theorem pids_append (l₁ l₂ : List Path) : pids (l₁ ++ l₂) = pids l₁ ++ pids l₂ :=
  List.map_append _ _ _

/-- Tick replaces active with the successors of all active paths. -/
theorem tick_active_eq (cfg : Config) (s : Surveyor) :
    (Surveyor.tick cfg s).active = s.active.flatMap cfg.advance := by
  simp [Surveyor.tick, tickGo_active]

/-- Tick leaves spilled alone. -/
theorem tick_spilled_eq (cfg : Config) (s : Surveyor) :
    (Surveyor.tick cfg s).spilled = s.spilled := rfl

/-- Tick leaves suspended alone. -/
theorem tick_suspended_eq (cfg : Config) (s : Surveyor) :
    (Surveyor.tick cfg s).suspended = s.suspended := rfl

/-- Filter leaves suspended alone. -/
theorem filter_suspended_eq (cfg : Config) (s : Surveyor) :
    (Surveyor.filter cfg s).suspended = s.suspended := rfl

/-- Spill leaves suspended alone. -/
theorem spill_suspended_eq (cfg : Config) (s : Surveyor) :
    (Surveyor.spill cfg s).suspended = s.suspended := rfl

/-- Step leaves suspended alone. -/
theorem step_suspended_eq (cfg : Config) (s : Surveyor) :
    (Surveyor.step cfg s).suspended = s.suspended := rfl

/-- Iterated step leaves suspended alone. -/
theorem stepIter_suspended_eq (cfg : Config) :
    ∀ (k : Nat) (s : Surveyor), (stepIter cfg k s).suspended = s.suspended := by
  intro k
  induction k with
  | zero => intro s; rfl
  | succ k ih => intro s; rw [stepIter, ih, step_suspended_eq]

/-- The identities of active and spilled after spill are a permutation of the
identities before: the prioritized list is a permutation of the
concatenation, the split recombines to it, and the conditional resume and
suspend maps keep identities. -/
theorem spill_pids_perm (cfg : Config) (s : Surveyor) :
    pids ((Surveyor.spill cfg s).active ++ (Surveyor.spill cfg s).spilled) ~
      pids (s.active ++ s.spilled) := by
  have ha : (Surveyor.spill cfg s).active
      = (pyTake cfg.maxActive (prioritize_paths cfg.comparator (s.active ++ s.spilled))).map
          (fun p => if memIdB p s.spilled then Path.resume p else p) := rfl
  have hsp : (Surveyor.spill cfg s).spilled
      = (pyDrop cfg.maxActive (prioritize_paths cfg.comparator (s.active ++ s.spilled))).map
          (fun p => if memIdB p s.active then Surveyor.suspend_path cfg p else p) := rfl
  have h1 : pids ((Surveyor.spill cfg s).active ++ (Surveyor.spill cfg s).spilled)
      = pids (prioritize_paths cfg.comparator (s.active ++ s.spilled)) := by
    rw [pids_append, ha, hsp,
      pids_map_pid_preserving _ (resume_if_pid s.spilled),
      pids_map_pid_preserving _ (suspend_if_pid cfg s.active),
      ← pids_append, pyTake_append_pyDrop]
  rw [h1]
  exact (List.perm_insertionSort _ _).map Path.pid

/-- One step keeps the no-duplicate-identity invariant, given the freshness
contract of the collaborator for the step. -/
theorem step_preserves_setsNodup (cfg : Config) (s : Surveyor)
    (hf : FreshStep cfg s) (h : setsNodup s) : setsNodup (Surveyor.step cfg s) := by
  have hTick : setsNodup (Surveyor.tick cfg s) := by
    unfold setsNodup
    rw [tick_active_eq, tick_spilled_eq, tick_suspended_eq, List.nodup_append]
    refine ⟨hf.1, ?_, ?_⟩
    · exact (List.sublist_append_right _ _).nodup h
    · intro a ha hb
      rcases List.mem_map.mp ha with ⟨q, hq, rfl⟩
      refine hf.2 q hq ?_
      simp only [pids_append, List.mem_append] at hb ⊢
      tauto
  have hFil : setsNodup (Surveyor.filter cfg (Surveyor.tick cfg s)) := by
    unfold setsNodup at hTick ⊢
    refine List.Sublist.nodup ?_ hTick
    exact (((List.filter_sublist _).map Path.pid).append_right _)
  have hSp : setsNodup (Surveyor.spill cfg (Surveyor.filter cfg (Surveyor.tick cfg s))) := by
    unfold setsNodup at hFil ⊢
    set t := Surveyor.filter cfg (Surveyor.tick cfg s) with ht
    have hperm :
        (pids (Surveyor.spill cfg t).active ++ (pids (Surveyor.spill cfg t).spilled ++ pids (Surveyor.spill cfg t).suspended)) ~
          (pids t.active ++ (pids t.spilled ++ pids t.suspended)) := by
      rw [spill_suspended_eq]
      calc pids (Surveyor.spill cfg t).active ++ (pids (Surveyor.spill cfg t).spilled ++ pids t.suspended)
          = (pids (Surveyor.spill cfg t).active ++ pids (Surveyor.spill cfg t).spilled) ++ pids t.suspended := by
            rw [List.append_assoc]
        _ = pids ((Surveyor.spill cfg t).active ++ (Surveyor.spill cfg t).spilled) ++ pids t.suspended := by
            rw [pids_append]
        _ ~ pids (t.active ++ t.spilled) ++ pids t.suspended := (spill_pids_perm cfg t).append_right _
        _ = (pids t.active ++ pids t.spilled) ++ pids t.suspended := by rw [pids_append]
        _ = pids t.active ++ (pids t.spilled ++ pids t.suspended) := by rw [List.append_assoc]
    exact hperm.nodup_iff.mpr hFil
  exact hSp

/-- Every reachable state has no duplicated identity across the live
collections and an empty suspended list. -/
theorem reachable_inv (cfg : Config) (s : Surveyor) (h : Reachable cfg s) :
    setsNodup s ∧ s.suspended = [] := by
  induction h with
  | init seeds hnd =>
    exact ⟨by simpa [setsNodup, Surveyor.init, pids] using hnd, rfl⟩
  | step s' h' hf ih =>
    exact ⟨step_preserves_setsNodup cfg s' hf ih.1, by rw [step_suspended_eq]; exact ih.2⟩

/-- C6: at every step boundary of a reachable Surveyor, the active, spilled
and suspended collections are pairwise disjoint by path identity. -/
theorem step_boundary_disjointness (cfg : Config) (s : Surveyor) (h : Reachable cfg s) :
    (∀ p ∈ s.active, p.pid ∉ pids s.spilled)
  ∧ (∀ p ∈ s.active, p.pid ∉ pids s.suspended)
  ∧ (∀ p ∈ s.spilled, p.pid ∉ pids s.suspended) := by
  have hn := (reachable_inv cfg s h).1
  unfold setsNodup at hn
  rw [List.nodup_append] at hn
  obtain ⟨_h1, h2, h3⟩ := hn
  rw [List.nodup_append] at h2
  refine ⟨?_, ?_, ?_⟩
  · intro p hp hmem
    exact h3 (List.mem_map_of_mem Path.pid hp) (List.mem_append_left _ hmem)
  · intro p hp hmem
    exact h3 (List.mem_map_of_mem Path.pid hp) (List.mem_append_right _ hmem)
  · intro p hp hmem
    exact h2.2.2 (List.mem_map_of_mem Path.pid hp) hmem

/-- The concrete one-step state sW6 is reachable. -/
theorem reachW6 : Reachable cfgW6 sW6 :=
  Reachable.step (Surveyor.init cfgW6 [p0]) (Reachable.init [p0] (by decide))
    ⟨by decide, by decide⟩

/-- Witness for C6: in the reachable state sW6, the active path qA is not
among the spilled identities. -/
theorem step_boundary_disjointness_witness : qA.pid ∉ pids sW6.spilled :=
  (step_boundary_disjointness cfgW6 sW6 reachW6).1 qA (by decide)

/-- C9: the suspended collection is created empty and no operation of the
scheduler ever appends to it: tick, filter, spill and step leave it alone,
run returns a state with the suspended list of its argument, and every
reachable state has it empty. -/
theorem suspended_never_added (cfg : Config) :
    (∀ seeds : List Path, (Surveyor.init cfg seeds).suspended = [])
  ∧ (∀ s : Surveyor, (Surveyor.tick cfg s).suspended = s.suspended)
  ∧ (∀ s : Surveyor, (Surveyor.filter cfg s).suspended = s.suspended)
  ∧ (∀ s : Surveyor, (Surveyor.spill cfg s).suspended = s.suspended)
  ∧ (∀ s : Surveyor, (Surveyor.step cfg s).suspended = s.suspended)
  ∧ (∀ (stopS pauseS : Nat → Bool) (fuel : Nat) (s : Surveyor) (n : Option Int) (i : Nat)
       (out : Surveyor) (ex : RunExit),
       Surveyor.run cfg stopS pauseS fuel s n i = some (out, ex) → out.suspended = s.suspended)
  ∧ (∀ s : Surveyor, Reachable cfg s → s.suspended = []) := by
  refine ⟨fun _ => rfl, fun _ => rfl, fun _ => rfl, fun _ => rfl, fun _ => rfl, ?_, ?_⟩
  · intro stopS pauseS fuel s n i out ex h
    obtain ⟨k, rfl, -, -, -⟩ := run_some_spec cfg stopS pauseS fuel s n i out ex h
    exact stepIter_suspended_eq cfg k s
  · intro s h
    exact (reachable_inv cfg s h).2

/-- Witness for C9: the reachable state sW6 has an empty suspended list. -/
theorem suspended_never_added_witness : sW6.suspended = [] :=
  (suspended_never_added cfgW6).2.2.2.2.2.2 sW6 reachW6

/-- When the fallible tick loop raises, the carried state keeps the active,
spilled and suspended lists of the instance and extends the deadended and
errored lists it started from: whatever was already archived stays
archived. -/
theorem tickEGo_error (cfg : Config) (advE : Path → Except Nat (List Path)) (base : Surveyor) :
    ∀ (l na : List Path) (dd : List DeadEntry) (er : List Path) (f : Nat) (s2 : Surveyor),
      tickEGo cfg advE base l na dd er = Except.error (f, s2) →
      s2.active = base.active ∧ s2.spilled = base.spilled ∧ s2.suspended = base.suspended
      ∧ dd <+: s2.deadended ∧ er <+: s2.errored := by
  intro l
  induction l with
  | nil =>
    intro na dd er f s2 h
    simp [tickEGo] at h
  | cons p rest ih =>
    intro na dd er f s2 h
    rw [tickEGo] at h
    cases hadv : advE p with
    | error g =>
      rw [hadv] at h
      simp only [Except.error.injEq, Prod.mk.injEq] at h
      obtain ⟨rfl, rfl⟩ := h
      exact ⟨rfl, rfl, rfl, ⟨[], List.append_nil _⟩, ⟨[], List.append_nil _⟩⟩
    | ok succ =>
      rw [hadv] at h
      obtain ⟨h1, h2, h3, h4, h5⟩ := ih _ _ _ _ _ h
      refine ⟨h1, h2, h3, ?_, ?_⟩
      · refine (?_ : dd <+: _).trans h4
        split
        · split
          · exact ⟨_, rfl⟩
          · exact ⟨_, rfl⟩
        · exact ⟨[], List.append_nil _⟩
      · refine (?_ : er <+: _).trans h5
        split
        · exact ⟨_, rfl⟩
        · exact ⟨[], List.append_nil _⟩

/-- One unfolding of the fallible run loop. -/
theorem runE_succ (cfg : Config) (advE : Path → Except Nat (List Path))
    (stopS pauseS : Nat → Bool) (fuel : Nat) (s : Surveyor) (n : Option Int) (i : Nat) :
    Surveyor.runE cfg advE stopS pauseS (fuel + 1) s n i =
      (if s.done then some (Except.ok (s, RunExit.done))
       else if budgetExhausted n then some (Except.ok (s, RunExit.budget))
       else
         match Surveyor.stepE cfg advE s with
         | Except.error e => some (Except.error e)
         | Except.ok s1 =>
           if stopS i then some (Except.ok (s1, RunExit.stopped))
           else Surveyor.runE cfg advE stopS pauseS fuel s1 (decOpt n) (i + 1)) := rfl

/-- C8: a fault raised by the advance call propagates out of tick, out of
step and out of the enclosing run unmasked, and the state it leaves behind is
consistent: active, spilled and suspended are untouched, and every entry
already moved into deadended or errored before the fault stays moved (the old
lists are initial segments of the new ones). -/
theorem collaborator_fault_propagates (cfg : Config) (advE : Path → Except Nat (List Path))
    (stopS pauseS : Nat → Bool) (fuel i : Nat) (s s2 : Surveyor) (f : Nat) (n : Option Int)
    (hfault : Surveyor.tickE cfg advE s = Except.error (f, s2))
    (hd : s.done = false) (hb : budgetExhausted n = false) :
    Surveyor.stepE cfg advE s = Except.error (f, s2)
  ∧ Surveyor.runE cfg advE stopS pauseS (fuel + 1) s n i = some (Except.error (f, s2))
  ∧ s2.active = s.active ∧ s2.spilled = s.spilled ∧ s2.suspended = s.suspended
  ∧ s.deadended <+: s2.deadended ∧ s.errored <+: s2.errored := by
  have hstep : Surveyor.stepE cfg advE s = Except.error (f, s2) := by
    unfold Surveyor.stepE
    rw [show Surveyor.tickE cfg advE (Surveyor.pre_tick s) = Except.error (f, s2) from hfault]
  have hrun : Surveyor.runE cfg advE stopS pauseS (fuel + 1) s n i = some (Except.error (f, s2)) := by
    rw [runE_succ, if_neg (by simp [hd]), if_neg (by simp [hb]), hstep]
  have hmono := tickEGo_error cfg advE s s.active [] s.deadended s.errored f s2 hfault
  exact ⟨hstep, hrun, hmono.1, hmono.2.1, hmono.2.2.1, hmono.2.2.2.1, hmono.2.2.2.2⟩

/-- Witness for C8 at a concrete faulting advance: one path deadends and is
archived, the next faults; the fault carries out of stepE and runE with the
archived deadend retained and active untouched. -/
theorem collaborator_fault_propagates_witness :
    Surveyor.stepE baseCfg advW8 sW8 = Except.error (42, sW8post)
  ∧ Surveyor.runE baseCfg advW8 flagOff flagOff 3 sW8 none 0 = some (Except.error (42, sW8post))
  ∧ sW8post.active = sW8.active :=
  have h := collaborator_fault_propagates baseCfg advW8 flagOff flagOff 2 0 sW8 sW8post 42 none
    rfl (by decide) rfl
  ⟨h.1, h.2.1, h.2.2.1⟩

end Angr
